import Mathlib

/-!
Verification development for the `checks` repository.

The repository consists of three Python files:
* `src/checks/checks.py` — the current check-run client: GitHub check-run
  lifecycle (`start`, `check_run_id`, `conclude`), the mypy and pylint
  output parsers, the conclusion aggregator and the CLI entry point;
* `src/checks.py` — an older variant of the same module (its functions are
  embedded here with a `_v1` suffix where they differ);
* `src/tasks.py` — CI task definitions that consume the client.

Modelling conventions:
* Python `str` is `List Char` (`Str`); `str.partition`, `str.rpartition`,
  `str.split`, `str.strip`, `str.isdigit` and `int()` on digit strings are
  embedded below as executable functions on `List Char`.
* Python exceptions are `Except PyErr`; an `assert False` is
  `PyErr.assertionError`, an out-of-range index (`""[0]`) is
  `PyErr.indexError`.  Stateful code returns the error together with the
  state reached so far, since Python exceptions do not roll back effects.
* The remote check-run service (spec section 6) is an explicit `Server`
  state: creating a check run appends a record in state `in_progress` and
  returns a fresh numeric id; listing returns the records for the
  repository/commit pair in creation order; updating patches the fields
  present in the request body.
-/

namespace Checks

/-- Python strings are modelled as lists of characters. -/
abbrev Str := List Char

/-- First-occurrence search used by `str.partition` and `str.split`:
`splitFirst sep s = some (pre, post)` when `s = pre ++ sep ++ post` at the
first occurrence of `sep` in `s`, and `none` when `sep` does not occur.
`sep` is always non-empty at every call site (Python raises on `""`). -/
def splitFirst (sep : Str) : Str → Option (Str × Str)
  | [] => none
  | c :: cs =>
    if sep.isPrefixOf (c :: cs) then some ([], List.drop sep.length (c :: cs))
    else (splitFirst sep cs).map (fun p => (c :: p.1, p.2))

/-- Python `s.partition(sep)`: `(before, sep, after)` at the first
occurrence of `sep`, `(s, "", "")` when `sep` is absent. -/
def partition (s sep : Str) : Str × Str × Str :=
  match splitFirst sep s with
  | some (pre, post) => (pre, sep, post)
  | none => (s, [], [])

/-- Python `s.rpartition(sep)`: `(before, sep, after)` at the last
occurrence of `sep`, `("", "", s)` when `sep` is absent.  The last
occurrence of `sep` in `s` is the first occurrence of `sep.reverse` in
`s.reverse`. -/
def rpartition (s sep : Str) : Str × Str × Str :=
  match splitFirst sep.reverse s.reverse with
  | some (pre, post) => (post.reverse, sep, pre.reverse)
  | none => ([], [], s)

/-- Python `s.split(sep)` (non-empty `sep`), with explicit fuel so that the
definition is structurally recursive.  Each step consumes at least
`sep.length ≥ 1` characters, so `s.length + 1` units of fuel always
suffice (see `splitOn`). -/
def splitOnFuel (sep : Str) : Nat → Str → List Str
  | 0, s => [s]
  | n + 1, s =>
    match splitFirst sep s with
    | none => [s]
    | some (pre, post) => pre :: splitOnFuel sep n post

/-- Python `s.split(sep)` for non-empty `sep`: `"".split(sep) = [""]`,
`"a,b".split(",") = ["a", "b"]`, separators are not kept. -/
def splitOn (s sep : Str) : List Str :=
  splitOnFuel sep (s.length + 1) s

/-- Helper for `splitLinesKeep`: re-attach the `"\n"` terminators that
`splitOn` removed.  The final piece had no terminator; if it is empty it is
not a line at all. -/
def keepEndsOf : List Str → List Str
  | [] => []
  | [p] => if p = [] then [] else [p]
  | p :: q :: rest => (p ++ [Char.ofNat 10]) :: keepEndsOf (q :: rest)

/-- Iterating a Python text stream (`yield from sys.stdin`) yields each
line including its trailing `"\n"`, plus a final unterminated chunk when
present.  (Text mode also applies universal-newline translation upstream,
so the stream content itself uses bare `"\n"` framing.) -/
def splitLinesKeep (s : Str) : List Str :=
  keepEndsOf (splitOn s ("\n".data))

/-- Joining a list of logical lines with a separator; the inverse of
`splitOn` when no line contains the separator. -/
def joinSep (sep : Str) : List Str → Str
  | [] => []
  | [x] => x
  | x :: y :: ys => x ++ sep ++ joinSep sep (y :: ys)

/-- Python `str.strip()` whitespace predicate (space, tab, newline,
carriage return, vertical tab, form feed). -/
def pyIsSpace (c : Char) : Bool :=
  c == ' ' || c == Char.ofNat 9 || c == Char.ofNat 10 || c == Char.ofNat 13
    || c == Char.ofNat 11 || c == Char.ofNat 12

/-- Python `s.strip()`: drop whitespace from both ends. -/
def strip (s : Str) : Str :=
  ((s.dropWhile pyIsSpace).reverse.dropWhile pyIsSpace).reverse

/-- Python `s.isdigit()`: non-empty and all digits.  (Python also accepts
some non-ASCII digit characters; every input relevant to this program is
ASCII, and both copies of the source use the same predicate.) -/
def isdigit (s : Str) : Bool :=
  !s.isEmpty && s.all Char.isDigit

/-- Python `int(s)` on an all-digit string. -/
def pyInt (s : Str) : Nat :=
  s.foldl (fun n c => 10 * n + (c.toNat - 48)) 0

/-- Exceptions that the embedded code can raise: `assert False`
(`AnnotationLevel.from_mypy_level` / `from_pylint_level`, `conclude` with
an unknown check name, `get_ctx`) and `IndexError` (`error_code[0]` on an
empty string in `parse_pylint_line`, `[...][0]` in `check_run_id` of
src/checks.py). -/
inductive PyErr
  | assertionError
  | indexError
  deriving DecidableEq

instance {ε α : Type} [DecidableEq ε] [DecidableEq α] : DecidableEq (Except ε α) := fun x y =>
  match x, y with
  | Except.error e, Except.error f =>
    if h : e = f then isTrue (by rw [h]) else isFalse (fun hh => h (Except.error.inj hh))
  | Except.error _, Except.ok _ => isFalse (fun hh => Except.noConfusion hh)
  | Except.ok _, Except.error _ => isFalse (fun hh => Except.noConfusion hh)
  | Except.ok a, Except.ok b =>
    if h : a = b then isTrue (by rw [h]) else isFalse (fun hh => h (Except.ok.inj hh))

/-- `class AnnotationLevel(Enum)` from src/checks/checks.py lines 27-48
(the copy in src/checks.py lines 23-32 declares the same enum members). -/
inductive AnnotationLevel
  | FAILURE
  | WARNING
  | NOTICE
  deriving DecidableEq

/-- The `.value` of each enum member. -/
def AnnotationLevel.value : AnnotationLevel → Str
  | AnnotationLevel.FAILURE => "failure".data
  | AnnotationLevel.WARNING => "warning".data
  | AnnotationLevel.NOTICE => "notice".data

/-- `AnnotationLevel.from_mypy_level` (src/checks/checks.py lines 34-38):
only `"error"` is mapped; anything else hits `assert False`, modelled as
`none`. -/
def AnnotationLevel.from_mypy_level (level : Str) : Option AnnotationLevel :=
  if level = ("error".data) then some AnnotationLevel.FAILURE else none

/-- `AnnotationLevel.from_mypy_level` of src/checks.py lines 28-32
(textually identical to the src/checks/checks.py copy). -/
def AnnotationLevel.from_mypy_level_v1 (level : Str) : Option AnnotationLevel :=
  if level = ("error".data) then some AnnotationLevel.FAILURE else none

/-- `AnnotationLevel.from_pylint_level` (src/checks/checks.py lines
40-48).  It is always called on the one-character string `error_code[0]`,
so the argument is a `Char`; an unmapped character hits `assert False`. -/
def AnnotationLevel.from_pylint_level (level : Char) : Option AnnotationLevel :=
  if level == 'E' || level == 'F' then some AnnotationLevel.FAILURE
  else if level == 'W' then some AnnotationLevel.WARNING
  else if level == 'R' || level == 'C' then some AnnotationLevel.NOTICE
  else none

/-- `Loc` dataclass: path and 1-based line number. -/
structure Loc where
  path : Str
  line_no : Nat
  deriving DecidableEq

/-- `Annotation` dataclass from src/checks/checks.py lines 57-62; `title`
defaults to `""` and is passed explicitly as `[]` at construction sites
that omit it. -/
structure Annotation where
  loc : Loc
  level : AnnotationLevel
  msg : Str
  title : Str
  deriving DecidableEq

/-- `Annotations` dataclass: a titled batch of annotations. -/
structure Annotations where
  title : Str
  summary : Str
  annotations : List Annotation
  deriving DecidableEq

/-- The wire form of one annotation (`Annotation.asdict`,
src/checks/checks.py lines 64-72). -/
structure AnnotationDict where
  path : Str
  start_line : Nat
  end_line : Nat
  annotation_level : Str
  message : Str
  title : Str
  deriving DecidableEq

/-- `Annotation.asdict`: `start_line == end_line == loc.line_no`. -/
def Annotation.asdict (a : Annotation) : AnnotationDict :=
  ⟨a.loc.path, a.loc.line_no, a.loc.line_no, a.level.value, a.msg, a.title⟩

/-- `Config` dataclass from src/checks/checks.py lines 20-24 (src/checks.py
calls the same triple `GitContext`). -/
structure Config where
  repo : Str
  sha : Str
  token : Str
  deriving DecidableEq

/-- The `output` object of a completed check run as sent by `conclude`. -/
structure CheckOutput where
  title : Str
  summary : Str
  annotations : List AnnotationDict
  deriving DecidableEq

/-- One check-run record held by the remote service (spec section 6: list
entries expose id, name, status, conclusion; create bodies carry name,
head_sha, status and an optional details_url; completed runs carry an
output payload). -/
structure CheckRunRec where
  id : Nat
  repo : Str
  sha : Str
  name : Str
  status : Str
  conclusion : Option Str
  details_url : Option Str
  output : Option CheckOutput
  deriving DecidableEq

/-- The remote service state: all check runs in creation order plus the
next fresh id.  Spec section 6: a create request yields a numeric id in
the response; ids are externally assigned and fresh per created run. -/
structure Server where
  runs : List CheckRunRec
  nextId : Nat
  deriving DecidableEq

/-- Remote model of `POST /repos/{repo}/check-runs` with a body
`{name, head_sha, status: "in_progress", details_url?}`: appends a fresh
record and returns its id. -/
def postCheckRun (ctx : Config) (check_name : Str) (details_url : Option Str)
    (s : Server) : Nat × Server :=
  (s.nextId,
   { runs := s.runs ++
       [⟨s.nextId, ctx.repo, ctx.sha, check_name, ("in_progress".data), none, details_url, none⟩],
     nextId := s.nextId + 1 })

/-- `start` from src/checks/checks.py lines 129-133: build the create body
(the `details_url` key is added only when the argument is truthy, i.e.
neither `None` nor `""`) and unconditionally POST a new check run,
returning the id from the response. -/
def start (ctx : Config) (check_name : Str) (details_url : Option Str)
    (s : Server) : Nat × Server :=
  postCheckRun ctx check_name
    (match details_url with
     | some d => if d.isEmpty then none else some d
     | none => none) s

/-- `list_check_runs` (src/checks/checks.py lines 136-137): GET the check
runs recorded for the configured repository/commit pair. -/
def list_check_runs (ctx : Config) (s : Server) : List CheckRunRec :=
  s.runs.filter (fun r => r.repo == ctx.repo && r.sha == ctx.sha)

/-- `check_run_id` (src/checks/checks.py lines 140-144): collect the ids
of the listed runs whose name matches; if there is none, fall back to
`start`, otherwise return the first match. -/
def check_run_id (ctx : Config) (check_name : Str) (s : Server) : Nat × Server :=
  match ((list_check_runs ctx s).filter (fun r => r.name == check_name)).map (fun r => r.id) with
  | [] => start ctx check_name none s
  | i :: _ => (i, s)

/-- Remote model of `PATCH /repos/{repo}/check-runs/{id}`: update the
fields present in the request body on the record with the given id; a
field absent from the body keeps its stored value (the direct mode of
`conclude` sends no `output` key). -/
def patchRun (runId : Nat) (status : Str) (conclusion : Option Str)
    (output : Option CheckOutput) (s : Server) : Server :=
  { s with runs := s.runs.map (fun r =>
      if r.id == runId then
        { r with
          status := status
          conclusion := conclusion
          output := match output with | some o => some o | none => r.output }
      else r) }

/-- `get_conclusion` (src/checks/checks.py lines 180-187). -/
def get_conclusion (annotations : Annotations) : Str :=
  if annotations.annotations.any (fun a => a.level == AnnotationLevel.FAILURE) then "failure".data
  else if annotations.annotations.any (fun a => a.level == AnnotationLevel.WARNING) then "failure".data
  else if annotations.annotations.any (fun a => a.level == AnnotationLevel.NOTICE) then "neutral".data
  else "success".data

/-- `parse_loc` (src/checks/checks.py lines 203-212): split off a leading
`path:line` prefix ending at the first `": "`; `(None, line)` when the
prefix is missing, the path or line segment is empty, or the line segment
is not all digits. -/
def parse_loc (line : Str) : Option Loc × Str :=
  let p1 := partition line (": ".data)
  let loc := p1.1
  let rest := p1.2.2
  if loc = [] then (none, line)
  else
    let p2 := partition loc (":".data)
    let path := p2.1
    let line_no := p2.2.2
    if path = [] ∨ line_no = [] then (none, line)
    else if isdigit line_no = false then (none, line)
    else (some ⟨path, pyInt line_no⟩, rest)

/-- `parse_loc` of src/checks.py lines 152-161 (textually identical to the
src/checks/checks.py copy). -/
def parse_loc_v1 (line : Str) : Option Loc × Str :=
  let p1 := partition line (": ".data)
  let loc := p1.1
  let rest := p1.2.2
  if loc = [] then (none, line)
  else
    let p2 := partition loc (":".data)
    let path := p2.1
    let line_no := p2.2.2
    if path = [] ∨ line_no = [] then (none, line)
    else if isdigit line_no = false then (none, line)
    else (some ⟨path, pyInt line_no⟩, rest)

/-- `parse_mypy_line` (src/checks/checks.py lines 221-226): no location
means no annotation; otherwise split the remainder into level and message
at the first `": "` and map the level, raising on anything but
`"error"`. -/
def parse_mypy_line (line : Str) : Except PyErr (Option Annotation) :=
  match parse_loc line with
  | (none, _) => Except.ok none
  | (some loc, rest) =>
    let p := partition rest (": ".data)
    match AnnotationLevel.from_mypy_level p.1 with
    | none => Except.error PyErr.assertionError
    | some lv => Except.ok (some ⟨loc, lv, p.2.2, []⟩)

/-- `extract_between` (src/checks/checks.py lines 229-232): partition on
the left separator, then right-partition the remainder on the right
separator. -/
def extract_between (lsep rsep line : Str) : Str × Str × Str :=
  let p1 := partition line lsep
  let p2 := rpartition p1.2.2 rsep
  (p1.1, p2.1, p2.2.2)

/-- `parse_pylint_line` (src/checks/checks.py lines 235-243): extract the
`[code(rule)]` segment after the location; `error_code[0]` raises
`IndexError` when `error_code` is empty (no bracketed segment), and
`from_pylint_level` raises on an unmapped leading character. -/
def parse_pylint_line (line : Str) : Except PyErr (Option Annotation) :=
  match parse_loc line with
  | (none, _) => Except.ok none
  | (some loc, rest) =>
    let e1 := extract_between ("[".data) ("]".data) rest
    let e2 := extract_between ("(".data) (")".data) e1.2.1
    match e2.1 with
    | [] => Except.error PyErr.indexError
    | c :: _ =>
      match AnnotationLevel.from_pylint_level c with
      | none => Except.error PyErr.assertionError
      | some lv => Except.ok (some ⟨loc, lv, strip e1.2.2, e2.2.1⟩)

/-- `parse_annotations` (src/checks/checks.py lines 246-249):
`list(skip_nones(map(p, lines)))` — apply the line parser in order, drop
`None` results, propagate the first exception. -/
def parse_annotations (p : Str → Except PyErr (Option Annotation)) :
    List Str → Except PyErr (List Annotation)
  | [] => Except.ok []
  | l :: ls =>
    match p l with
    | Except.error e => Except.error e
    | Except.ok none => parse_annotations p ls
    | Except.ok (some a) =>
      match parse_annotations p ls with
      | Except.error e => Except.error e
      | Except.ok rest => Except.ok (a :: rest)

/-- `parse_mypy` (src/checks/checks.py lines 252-253). -/
def parse_mypy (lines : List Str) : Except PyErr Annotations :=
  match parse_annotations parse_mypy_line lines with
  | Except.error e => Except.error e
  | Except.ok anns => Except.ok ⟨("Mypy".data), ("Result of mypy checks".data), anns⟩

/-- `parse_pylint` (src/checks/checks.py lines 256-259). -/
def parse_pylint (lines : List Str) : Except PyErr Annotations :=
  match parse_annotations parse_pylint_line lines with
  | Except.error e => Except.error e
  | Except.ok anns => Except.ok ⟨("Pylint".data), ("Result of pylint checks".data), anns⟩

/-- `conclude` (src/checks/checks.py lines 147-177).  Direct mode (a
conclusion is supplied) PATCHes `{status: "completed", conclusion}`.
Derived mode asserts `from_lines`, selects the parser by check name
(anything else hits `assert False`), and PATCHes the completed status with
the aggregated conclusion and the output payload.  `check_run_id` runs
first in both modes, so its state effects persist even when a later step
raises. -/
def conclude (ctx : Config) (check_name : Str) (conclusion : Option Str)
    (from_lines : Option (List Str)) (s : Server) : Except PyErr Unit × Server :=
  let r0 := check_run_id ctx check_name s
  let current_check := r0.1
  let s1 := r0.2
  match conclusion with
  | some c => (Except.ok (), patchRun current_check ("completed".data) (some c) none s1)
  | none =>
    match from_lines with
    | none => (Except.error PyErr.assertionError, s1)
    | some lines =>
      let parsed : Except PyErr Annotations :=
        if check_name = ("pylint".data) then parse_pylint lines
        else if check_name = ("mypy".data) then parse_mypy lines
        else Except.error PyErr.assertionError
      match parsed with
      | Except.error e => (Except.error e, s1)
      | Except.ok anns =>
        (Except.ok (),
         patchRun current_check ("completed".data) (some (get_conclusion anns))
           (some ⟨anns.title, anns.summary, anns.annotations.map (fun a => a.asdict)⟩) s1)

/-- `get_lines` (src/checks/checks.py lines 262-266): the `-` sentinel
yields the stdin stream line by line (terminators kept, as Python file
iteration does); otherwise the file text is split on `"\n"`.  `content`
stands for the stdin stream or the file text respectively. -/
def get_lines (path content : Str) : List Str :=
  if path = ("-".data) then splitLinesKeep content
  else splitOn content ("\n".data)

/-- `run_and_capture_lines` (src/tasks.py lines 14-21): the command runs
in the external execution context; `raw_output` is the captured stdout
(also delivered on `NonZeroExit`) and `failed` records whether the exit
status was non-zero.  The captured bytes are split on `"\r\n"`. -/
def run_and_capture_lines (raw_output : Str) (failed : Bool) : List Str × Bool :=
  (splitOn raw_output ("\r\n".data), failed)

/-- External effects issued by `get_ctx` (src/checks/checks.py lines
190-200): the `git rev-parse HEAD` subprocess and the token-minting call
(`create_token`, lines 91-100, which reads `private_key.pem` and POSTs to
the remote token endpoint). -/
inductive ExtCall
  | gitRevParse
  | mintToken
  deriving DecidableEq

/-- The environment variables read by `get_ctx`: `None` for an unset
variable. -/
structure Env where
  repo : Option Str
  sha : Option Str
  token : Option Str

/-- Python `os.getenv(X) or fallback`: both `None` and `""` are falsy and
trigger the fallback (recording its external effects). -/
def envOr (v : Option Str) (calls : List ExtCall) (fallback : Str) :
    List ExtCall × Str :=
  match v with
  | some s => if s.isEmpty then (calls, fallback) else ([], s)
  | none => (calls, fallback)

/-- `get_ctx` (src/checks/checks.py lines 190-200).  `git_out` is the
stdout of `git rev-parse HEAD` (the source strips it), `minted` the token
returned by `create_token`.  The returned trace lists the external calls
issued, in order; note that both fallbacks run before the `assert repo`
and `assert sha` lines. -/
def get_ctx (env : Env) (git_out minted : Str) :
    List ExtCall × Except PyErr Config :=
  let repo := env.repo
  let shaR := envOr env.sha [ExtCall.gitRevParse] (strip git_out)
  let tokenR := envOr env.token [ExtCall.mintToken] minted
  let calls := shaR.1 ++ tokenR.1
  match repo with
  | none => (calls, Except.error PyErr.assertionError)
  | some r =>
    if r.isEmpty then (calls, Except.error PyErr.assertionError)
    else if shaR.2.isEmpty then (calls, Except.error PyErr.assertionError)
    else (calls, Except.ok ⟨r, shaR.2, tokenR.2⟩)

/-- `Annotation` dataclass of src/checks.py lines 41-54: same fields as
the src/checks/checks.py copy but without `title`. -/
structure AnnotationV1 where
  loc : Loc
  level : AnnotationLevel
  msg : Str
  deriving DecidableEq

/-- `Annotations` dataclass of src/checks.py lines 57-61. -/
structure AnnotationsV1 where
  title : Str
  summary : Str
  annotations : List AnnotationV1
  deriving DecidableEq

/-- The loop body of `parse_mypy` in src/checks.py lines 164-173: for each
line, skip it when it has no location, otherwise split level and message
at the first `": "` and append an annotation, raising on a level other
than `"error"` (the `print` call has no bearing on the result). -/
def parse_mypy_v1_loop : List Str → Except PyErr (List AnnotationV1)
  | [] => Except.ok []
  | line :: ls =>
    match parse_loc_v1 line with
    | (none, _) => parse_mypy_v1_loop ls
    | (some loc, rest) =>
      let p := partition rest (": ".data)
      match AnnotationLevel.from_mypy_level_v1 p.1 with
      | none => Except.error PyErr.assertionError
      | some lv =>
        match parse_mypy_v1_loop ls with
        | Except.error e => Except.error e
        | Except.ok errors => Except.ok (⟨loc, lv, p.2.2⟩ :: errors)

/-- `parse_mypy` of src/checks.py lines 164-173. -/
def parse_mypy_v1 (lines : List Str) : Except PyErr AnnotationsV1 :=
  match parse_mypy_v1_loop lines with
  | Except.error e => Except.error e
  | Except.ok errors => Except.ok ⟨("Mypy".data), ("Result of mypy checks".data), errors⟩

/-- `parse_pylint` of src/checks.py lines 176-177: the body is `pass`, so
the function returns `None` for every input. -/
def parse_pylint_v1 (lines : List Str) : Option AnnotationsV1 :=
  none

/-- `annotate` from src/checks.py lines 127-140.  The first statement of
the body is a bare `return`, so the function returns `None` immediately;
the lookup-and-patch code on lines 129-140 sits below that `return` and
never executes, so the function denotes the identity on the remote
state. -/
def annotate (ctx : Config) (check_name : Str) (anns : Option AnnotationsV1)
    (s : Server) : Unit × Server :=
  ((), s)

/-- The `annotate-mypy` branch of `main` in src/checks.py line 199:
`annotate(ctx, "mypy", parse_mypy(...))`.  The parse runs first (argument
evaluation) and may raise; `annotate` then discards its result. -/
def annotate_mypy_action (ctx : Config) (lines : List Str) (s : Server) :
    Except PyErr Unit × Server :=
  match parse_mypy_v1 lines with
  | Except.error e => (Except.error e, s)
  | Except.ok anns =>
    let r := annotate ctx ("mypy".data) (some anns) s
    (Except.ok r.1, r.2)

/-- The `annotate-pylint` branch of `main` in src/checks.py line 201:
`annotate(ctx, "pylint", parse_pylint(...))`; `parse_pylint` there returns
`None` and never raises. -/
def annotate_pylint_action (ctx : Config) (lines : List Str) (s : Server) :
    Except PyErr Unit × Server :=
  let r := annotate ctx ("pylint".data) (parse_pylint_v1 lines) s
  (Except.ok r.1, r.2)

/-- The well-formed Dialect-A line shape `path:line: error: msg`, written
in cons-normal form: the path, a colon, the line number, `": "`, the
literal level token `error`, `": "`, and the message. -/
def mkMypyLine (path lineNo msg : Str) : Str :=
  path ++ (':' :: (lineNo ++ (':' :: (' ' :: (("error".data) ++ (':' :: (' ' :: msg)))))))

/-- A concrete configuration used by the concrete-input theorems below. -/
def ctx0 : Config :=
  ⟨("octo/repo".data), ("deadbeef".data), ("tok".data)⟩

/-- The remote state before any check run exists. -/
def emptyServer : Server :=
  ⟨[], 0⟩

/-- A remote state holding a single in-progress `ci` check run for the
repository/commit pair of `ctx0`. -/
def serverWithCi : Server :=
  ⟨[⟨7, ("octo/repo".data), ("deadbeef".data), ("ci".data), ("in_progress".data), none, none, none⟩], 8⟩

lemma isPrefixOf_append_self (l r : Str) : l.isPrefixOf (l ++ r) = true := by
  induction l with
  | nil => simp [List.isPrefixOf]
  | cons c cs ih => simp [List.isPrefixOf, ih]

lemma isPrefixOf_append_drop : ∀ (l s : Str), l.isPrefixOf s = true → l ++ List.drop l.length s = s := by
  intro l
  induction l with
  | nil => intro s _; simp
  | cons a as ih =>
    intro s hp
    cases s with
    | nil => simp [List.isPrefixOf] at hp
    | cons b bs =>
      simp only [List.isPrefixOf, Bool.and_eq_true, beq_iff_eq] at hp
      obtain ⟨hab, hrest⟩ := hp
      subst hab
      simpa using ih bs hrest

lemma splitFirst_self_append (h : Char) (t r : Str) :
    splitFirst (h :: t) ((h :: t) ++ r) = some ([], r) := by
  have hp : (h :: t).isPrefixOf (h :: (t ++ r)) = true := isPrefixOf_append_self (h :: t) r
  have hd : List.drop (h :: t).length (h :: (t ++ r)) = r := List.drop_left (h :: t) r
  simp [splitFirst, hp, hd]

lemma splitFirst_append_left (h : Char) (t : Str) :
    ∀ (x r : Str), (∀ c ∈ x, c ≠ h) →
      splitFirst (h :: t) (x ++ r) = (splitFirst (h :: t) r).map (fun p => (x ++ p.1, p.2)) := by
  intro x
  induction x with
  | nil =>
    intro r _
    simp only [List.nil_append]
    cases h' : splitFirst (h :: t) r with
    | none => rfl
    | some p => rfl
  | cons c cs ih =>
    intro r hx
    have hch : (h == c) = false :=
      beq_eq_false_iff_ne.mpr (fun hh => (hx c (by simp)) hh.symm)
    have hpre : (h :: t).isPrefixOf (c :: (cs ++ r)) = false := by
      simp [List.isPrefixOf, hch]
    show splitFirst (h :: t) (c :: (cs ++ r)) = _
    simp only [splitFirst, hpre, Bool.false_eq_true, if_false]
    rw [ih r (fun d hd => hx d (by simp [hd]))]
    cases splitFirst (h :: t) r with
    | none => rfl
    | some p => rfl

lemma splitFirst_none_of_head (h : Char) (t x : Str) (hx : ∀ c ∈ x, c ≠ h) :
    splitFirst (h :: t) x = none := by
  have := splitFirst_append_left h t x [] hx
  simpa using this

lemma splitFirst_eq (sep : Str) :
    ∀ (s p q : Str), splitFirst sep s = some (p, q) → s = p ++ sep ++ q := by
  intro s
  induction s with
  | nil => intro p q hpq; simp [splitFirst] at hpq
  | cons c cs ih =>
    intro p q hpq
    by_cases hpre : sep.isPrefixOf (c :: cs) = true
    · have h2 : some (([] : Str), List.drop sep.length (c :: cs)) = some (p, q) := by
        rw [← hpq]; simp [splitFirst, hpre]
      have h3 := Option.some.inj h2
      have hp : ([] : Str) = p := congrArg Prod.fst h3
      have hq : List.drop sep.length (c :: cs) = q := congrArg Prod.snd h3
      rw [← hp, ← hq]
      simpa using (isPrefixOf_append_drop sep (c :: cs) hpre).symm
    · have hh : (splitFirst sep cs).map (fun pr => (c :: pr.1, pr.2)) = some (p, q) := by
        rw [← hpq]; simp [splitFirst, hpre]
      cases hrec : splitFirst sep cs with
      | none => rw [hrec] at hh; simp at hh
      | some pr =>
        rw [hrec] at hh
        have h3 := Option.some.inj hh
        have hp : c :: pr.1 = p := congrArg Prod.fst h3
        have hq : pr.2 = q := congrArg Prod.snd h3
        have hcs := ih pr.1 pr.2 (by rw [hrec])
        rw [← hp, ← hq]
        simp [hcs]

lemma splitOnFuel_joinSep (h : Char) (t : Str) :
    ∀ (L : List Str) (n : Nat), L ≠ [] → (∀ l ∈ L, ∀ c ∈ l, c ≠ h) →
      (joinSep (h :: t) L).length < n →
      splitOnFuel (h :: t) n (joinSep (h :: t) L) = L := by
  intro L
  induction L with
  | nil => intro n hne _ _; exact absurd rfl hne
  | cons x xs ih =>
    intro n _ hc hn
    cases xs with
    | nil =>
      cases n with
      | zero => exact absurd hn (by omega)
      | succ m =>
        have hx : ∀ c ∈ x, c ≠ h := hc x (by simp)
        simp [splitOnFuel, joinSep, splitFirst_none_of_head h t x hx]
    | cons y ys =>
      cases n with
      | zero => exact absurd hn (by omega)
      | succ m =>
        have hx : ∀ c ∈ x, c ≠ h := hc x (by simp)
        have hsplit : splitFirst (h :: t) (joinSep (h :: t) (x :: y :: ys))
            = some (x, joinSep (h :: t) (y :: ys)) := by
          have hj : joinSep (h :: t) (x :: y :: ys)
              = x ++ ((h :: t) ++ joinSep (h :: t) (y :: ys)) := by
            simp [joinSep, List.append_assoc]
          rw [hj, splitFirst_append_left h t x _ hx, splitFirst_self_append]
          simp
        have hlen : (joinSep (h :: t) (y :: ys)).length < m := by
          have : (joinSep (h :: t) (x :: y :: ys)).length
              = x.length + (t.length + 1) + (joinSep (h :: t) (y :: ys)).length := by
            simp [joinSep]
            omega
          omega
        simp only [splitOnFuel, hsplit]
        rw [ih m (by simp) (fun l hl => hc l (by simp [hl])) hlen]

lemma splitOn_joinSep (h : Char) (t : Str) (L : List Str) (hL : L ≠ [])
    (hc : ∀ l ∈ L, ∀ c ∈ l, c ≠ h) :
    splitOn (joinSep (h :: t) L) (h :: t) = L :=
  splitOnFuel_joinSep h t L _ hL hc (Nat.lt_succ_self _)

lemma splitFirst_cons_step (sep : Str) (c : Char) (cs : Str)
    (h : sep.isPrefixOf (c :: cs) = false) :
    splitFirst sep (c :: cs) = (splitFirst sep cs).map (fun p => (c :: p.1, p.2)) := by
  simp [splitFirst, h]

lemma digit_ne_colon {c : Char} (hc : c.isDigit = true) : c ≠ ':' := by
  intro h
  rw [h] at hc
  exact absurd hc (by decide)

lemma digit_ne_space {c : Char} (hc : c.isDigit = true) : c ≠ ' ' := by
  intro h
  rw [h] at hc
  exact absurd hc (by decide)

lemma splitFirst_colonSpace_loc (path lineNo tail : Str)
    (hpc : ∀ c ∈ path, c ≠ ':') (hd : lineNo ≠ [])
    (hdd : ∀ c ∈ lineNo, c.isDigit = true) :
    splitFirst (':' :: [' ']) (path ++ (':' :: (lineNo ++ (':' :: (' ' :: tail)))))
      = some (path ++ (':' :: lineNo), tail) := by
  have hlc : ∀ c ∈ lineNo, c ≠ ':' := fun c hc => digit_ne_colon (hdd c hc)
  have hinner : splitFirst (':' :: [' ']) (lineNo ++ (':' :: (' ' :: tail)))
      = some (lineNo, tail) := by
    have := splitFirst_append_left ':' [' '] lineNo (':' :: (' ' :: tail)) hlc
    rw [this, show (':' :: (' ' :: tail)) = (':' :: [' ']) ++ tail from rfl,
      splitFirst_self_append]
    simp
  have hmid : splitFirst (':' :: [' ']) (':' :: (lineNo ++ (':' :: (' ' :: tail))))
      = some (':' :: lineNo, tail) := by
    cases lineNo with
    | nil => exact absurd rfl hd
    | cons d ds =>
      have hds : (' ' == d) = false :=
        beq_eq_false_iff_ne.mpr (fun hh => (digit_ne_space (hdd d (by simp))) hh.symm)
      have hpre : (':' :: [' ']).isPrefixOf (':' :: ((d :: ds) ++ (':' :: (' ' :: tail)))) = false := by
        simp [List.isPrefixOf, hds]
      rw [splitFirst_cons_step _ _ _ hpre, hinner]
      rfl
  rw [splitFirst_append_left ':' [' '] path _ hpc, hmid]
  rfl

lemma splitFirst_colon_loc (path lineNo : Str) (hpc : ∀ c ∈ path, c ≠ ':') :
    splitFirst [':'] (path ++ (':' :: lineNo)) = some (path, lineNo) := by
  rw [splitFirst_append_left ':' [] path _ hpc,
    show (':' :: lineNo) = [':'] ++ lineNo from rfl, splitFirst_self_append]
  simp

lemma parse_loc_wf (path lineNo tail : Str) (hp : path ≠ [])
    (hpc : ∀ c ∈ path, c ≠ ':') (hd : lineNo ≠ [])
    (hdd : ∀ c ∈ lineNo, c.isDigit = true) :
    parse_loc (path ++ (':' :: (lineNo ++ (':' :: (' ' :: tail)))))
      = (some ⟨path, pyInt lineNo⟩, tail) := by
  have h1 : partition (path ++ (':' :: (lineNo ++ (':' :: (' ' :: tail))))) (": ".data)
      = (path ++ (':' :: lineNo), (": ".data), tail) := by
    unfold partition
    rw [show (": ".data) = (':' :: [' ']) from rfl,
      splitFirst_colonSpace_loc path lineNo tail hpc hd hdd]
  have h2 : partition (path ++ (':' :: lineNo)) (":".data)
      = (path, (":".data), lineNo) := by
    unfold partition
    rw [show (":".data) = ([':'] : Str) from rfl, splitFirst_colon_loc path lineNo hpc]
  have hloc_ne : path ++ (':' :: lineNo) ≠ [] := by
    simp
  have hdig : isdigit lineNo = true := by
    cases lineNo with
    | nil => exact absurd rfl hd
    | cons d ds =>
      simp only [isdigit, List.isEmpty_cons, Bool.not_false, Bool.true_and, List.all_eq_true]
      exact fun c hc => hdd c hc
  simp only [parse_loc, h1, h2, hloc_ne, if_false, hdig]
  simp [hp, hd]

lemma mem_of_splitFirst_third (sep s p q : Str) (hsp : splitFirst sep s = some (p, q)) :
    ∀ c ∈ q, c ∈ s := by
  intro c hc
  rw [splitFirst_eq sep s p q hsp]
  simp [hc]

lemma partition_third_mem (s sep : Str) : ∀ c ∈ (partition s sep).2.2, c ∈ s := by
  unfold partition
  cases hsp : splitFirst sep s with
  | none => intro c hc; simp at hc
  | some pr =>
    obtain ⟨p, q⟩ := pr
    intro c hc
    exact mem_of_splitFirst_third sep s p q hsp c hc

lemma parse_loc_rest_mem (line : Str) (loc : Loc) (rest : Str)
    (h : parse_loc line = (some loc, rest)) : ∀ c ∈ rest, c ∈ line := by
  simp only [parse_loc] at h
  split_ifs at h with h1 h2 h3
  · simp at h
  · simp at h
  · simp at h
  · have hr : rest = (partition line (": ".data)).2.2 := by
      have := congrArg Prod.snd h
      simpa using this.symm
    rw [hr]
    exact partition_third_mem line (": ".data)

lemma parse_mypy_line_msg_mem (line : Str) (a : Annotation)
    (h : parse_mypy_line line = Except.ok (some a)) : ∀ c ∈ a.msg, c ∈ line := by
  unfold parse_mypy_line at h
  cases hloc : parse_loc line with
  | mk o rest =>
    cases o with
    | none => rw [hloc] at h; simp at h
    | some loc =>
      rw [hloc] at h
      simp only [] at h
      cases hml : AnnotationLevel.from_mypy_level (partition rest (": ".data)).1 with
      | none => rw [hml] at h; simp at h
      | some lv =>
        rw [hml] at h
        have hmsg : (partition rest (": ".data)).2.2 = a.msg :=
          congrArg Annotation.msg (Option.some.inj (Except.ok.inj h))
        intro c hc
        rw [← hmsg] at hc
        exact parse_loc_rest_mem line loc rest hloc c (partition_third_mem rest (": ".data) c hc)

lemma parse_annotations_mem (p : Str → Except PyErr (Option Annotation)) :
    ∀ (lines : List Str) (anns : List Annotation),
      parse_annotations p lines = Except.ok anns →
      ∀ a ∈ anns, ∃ l ∈ lines, p l = Except.ok (some a) := by
  intro lines
  induction lines with
  | nil =>
    intro anns h a ha
    simp only [parse_annotations] at h
    have hnil : anns = [] := (Except.ok.inj h).symm
    subst hnil
    simp at ha
  | cons l ls ih =>
    intro anns h a ha
    simp only [parse_annotations] at h
    cases hp : p l with
    | error e => rw [hp] at h; simp at h
    | ok o =>
      rw [hp] at h
      cases o with
      | none =>
        obtain ⟨l2, hl2, hpl2⟩ := ih anns h a ha
        exact ⟨l2, by simp [hl2], hpl2⟩
      | some a0 =>
        cases hrec : parse_annotations p ls with
        | error e => rw [hrec] at h; simp at h
        | ok rest =>
          rw [hrec] at h
          have hcons : a0 :: rest = anns := Except.ok.inj h
          subst hcons
          cases ha with
          | head => exact ⟨l, by simp, hp⟩
          | tail b hmem =>
            obtain ⟨l2, hl2, hpl2⟩ := ih rest hrec a hmem
            exact ⟨l2, by simp [hl2], hpl2⟩

lemma parse_mypy_msg_chars (lines : List Str) (A : Annotations)
    (hl : ∀ l ∈ lines, ∀ c ∈ l, c ≠ '\r')
    (h : parse_mypy lines = Except.ok A) :
    ∀ a ∈ A.annotations, ∀ c ∈ a.msg, c ≠ '\r' := by
  unfold parse_mypy at h
  cases hpa : parse_annotations parse_mypy_line lines with
  | error e => rw [hpa] at h; simp at h
  | ok anns =>
    rw [hpa] at h
    have hA : anns = A.annotations :=
      congrArg Annotations.annotations (Except.ok.inj h)
    intro a ha c hc
    obtain ⟨l, hlmem, hpl⟩ :=
      parse_annotations_mem parse_mypy_line lines anns hpa a (hA ▸ ha)
    exact hl l hlmem c (parse_mypy_line_msg_mem l a hpl c hc)

lemma parse_loc_v1_eq (line : Str) : parse_loc_v1 line = parse_loc line := rfl

lemma from_mypy_level_v1_eq (level : Str) :
    AnnotationLevel.from_mypy_level_v1 level = AnnotationLevel.from_mypy_level level := rfl

lemma parse_mypy_v1_loop_cons (line : Str) (ls : List Str) :
    parse_mypy_v1_loop (line :: ls)
      = match parse_mypy_line line with
        | Except.error e => Except.error e
        | Except.ok none => parse_mypy_v1_loop ls
        | Except.ok (some a) =>
          match parse_mypy_v1_loop ls with
          | Except.error e => Except.error e
          | Except.ok errors => Except.ok (⟨a.loc, a.level, a.msg⟩ :: errors) := by
  have h1 : parse_mypy_v1_loop (line :: ls)
      = (match parse_loc_v1 line with
         | (none, _) => parse_mypy_v1_loop ls
         | (some loc, rest) =>
           match AnnotationLevel.from_mypy_level_v1 (partition rest (": ".data)).1 with
           | none => Except.error PyErr.assertionError
           | some lv =>
             match parse_mypy_v1_loop ls with
             | Except.error e => Except.error e
             | Except.ok errors =>
               Except.ok (⟨loc, lv, (partition rest (": ".data)).2.2⟩ :: errors)) := rfl
  have h2 : parse_mypy_line line
      = (match parse_loc line with
         | (none, _) => Except.ok none
         | (some loc, rest) =>
           match AnnotationLevel.from_mypy_level (partition rest (": ".data)).1 with
           | none => Except.error PyErr.assertionError
           | some lv => Except.ok (some ⟨loc, lv, (partition rest (": ".data)).2.2, []⟩)) := rfl
  rw [h1, h2, parse_loc_v1_eq]
  cases hloc : parse_loc line with
  | mk o rest =>
    cases o with
    | none => rfl
    | some loc =>
      dsimp only
      rw [from_mypy_level_v1_eq]
      cases hml : AnnotationLevel.from_mypy_level (partition rest (": ".data)).1 with
      | none => rfl
      | some lv =>
        cases parse_mypy_v1_loop ls with
        | error e => rfl
        | ok errors => rfl

lemma mypy_loop_agree : ∀ (lines : List Str),
    parse_mypy_v1_loop lines
      = Except.map (List.map (fun a => (⟨a.loc, a.level, a.msg⟩ : AnnotationV1)))
          (parse_annotations parse_mypy_line lines) := by
  intro lines
  induction lines with
  | nil => rfl
  | cons line ls ih =>
    rw [parse_mypy_v1_loop_cons]
    simp only [parse_annotations]
    cases hp : parse_mypy_line line with
    | error e => rfl
    | ok o =>
      cases o with
      | none => exact ih
      | some a =>
        rw [ih]
        cases parse_annotations parse_mypy_line ls with
        | error e => rfl
        | ok rest => rfl

lemma any_perm {l m : List Annotation} (p : Annotation → Bool) (h : l.Perm m) :
    l.any p = m.any p := by
  rw [Bool.eq_iff_iff]
  simp only [List.any_eq_true]
  constructor
  · rintro ⟨x, hx, hpx⟩
    exact ⟨x, h.mem_iff.mp hx, hpx⟩
  · rintro ⟨x, hx, hpx⟩
    exact ⟨x, h.mem_iff.mpr hx, hpx⟩

lemma parse_mypy_line_eq (line : Str) :
    parse_mypy_line line
      = (match parse_loc line with
         | (none, _) => Except.ok none
         | (some loc, rest) =>
           match AnnotationLevel.from_mypy_level (partition rest (": ".data)).1 with
           | none => Except.error PyErr.assertionError
           | some lv => Except.ok (some ⟨loc, lv, (partition rest (": ".data)).2.2, []⟩)) := rfl

lemma check_run_id_cons (ctx : Config) (check_name : Str) (s : Server) (i : Nat) (is : List Nat)
    (h : ((list_check_runs ctx s).filter (fun r => r.name == check_name)).map (fun r => r.id)
        = i :: is) :
    check_run_id ctx check_name s = (i, s) := by
  unfold check_run_id
  rw [h]

lemma check_run_id_nil (ctx : Config) (check_name : Str) (s : Server)
    (h : ((list_check_runs ctx s).filter (fun r => r.name == check_name)).map (fun r => r.id)
        = []) :
    check_run_id ctx check_name s = start ctx check_name none s := by
  unfold check_run_id
  rw [h]

lemma conclude_direct (ctx : Config) (check_name : Str) (c : Str) (s : Server) :
    conclude ctx check_name (some c) none s
      = (Except.ok (), patchRun (check_run_id ctx check_name s).1 ("completed".data) (some c)
          none (check_run_id ctx check_name s).2) := rfl

lemma get_ctx_calls (env : Env) (git_out minted : Str) :
    (get_ctx env git_out minted).1
      = (envOr env.sha [ExtCall.gitRevParse] (strip git_out)).1
        ++ (envOr env.token [ExtCall.mintToken] minted).1 := by
  obtain ⟨repo, sha, token⟩ := env
  unfold get_ctx
  cases repo with
  | none => rfl
  | some r =>
    dsimp only
    split_ifs <;> rfl

/-- Claim C1, counterexample.  On the single input line
`src/x.py:5:1: W0611 (unused-import) foo imported but unused` the
Dialect-B (pylint) parser produces NO annotation: the segment before the
first `": "` is `src/x.py:5:1`, whose line field `5:1` is not all digits,
so `parse_loc` rejects the line and `parse_pylint_line` drops it.  The
batch built from this line is therefore empty and the aggregated
conclusion is `success`, not `failure` as the claim states. -/
theorem C1_counterexample :
    parse_pylint_line ("src/x.py:5:1: W0611 (unused-import) foo imported but unused".data)
      = Except.ok none
  ∧ parse_pylint [("src/x.py:5:1: W0611 (unused-import) foo imported but unused".data)]
      = Except.ok ⟨("Pylint".data), ("Result of pylint checks".data), []⟩
  ∧ get_conclusion ⟨("Pylint".data), ("Result of pylint checks".data), []⟩ = ("success".data) := by
  refine ⟨by decide, by decide, by decide⟩

/-- Claim C1 (amended): for the input line
`src/x.py:5:1: W0611 (unused-import) foo imported but unused`, `parse_loc`
returns no location (the line field `5:1` of the location segment is not
all digits), the Dialect-B parser yields no annotation, and the conclusion
aggregated from the resulting empty batch is `success`. -/
theorem C1_amended_pylint_drops_column_line :
    parse_loc ("src/x.py:5:1: W0611 (unused-import) foo imported but unused".data)
      = (none, ("src/x.py:5:1: W0611 (unused-import) foo imported but unused".data))
  ∧ Except.map get_conclusion
      (parse_pylint [("src/x.py:5:1: W0611 (unused-import) foo imported but unused".data)])
      = Except.ok ("success".data) := by
  refine ⟨by decide, by decide⟩

/-- Claim C5, counterexample.  The line built from the non-empty path
`a:1`, the all-digit line number `2` and the message `boom` has the shape
`path:line: error: msg` demanded by the claim, yet the mypy parser yields
NO annotation: `parse_loc` cuts the location at the first `": "`, giving
the segment `a:1:2`, splits it at the first colon into path `a` and line
field `1:2`, which is not all digits, so the line is dropped. -/
theorem C5_counterexample :
    parse_mypy_line (mkMypyLine ("a:1".data) ("2".data) ("boom".data)) = Except.ok none := by
  decide

/-- Claim C5 (amended): for every well-formed Dialect-A line
`path:line: error: msg` whose non-empty path contains no colon and whose
line number is non-empty and all digits, `parse_mypy_line` yields exactly
one annotation with severity failure, location `(path, line)` and message
`msg`; every line without a parseable location yields no annotation; and a
line with a parseable location whose level token differs from `error`
raises the unsupported-input assertion error instead of being dropped. -/
theorem C5_amended_mypy_line (path lineNo msg line : Str)
    (hp : path ≠ []) (hpc : ∀ c ∈ path, c ≠ ':')
    (hd : lineNo ≠ []) (hdd : ∀ c ∈ lineNo, c.isDigit = true) :
    parse_mypy_line (mkMypyLine path lineNo msg)
      = Except.ok (some ⟨⟨path, pyInt lineNo⟩, AnnotationLevel.FAILURE, msg, []⟩)
  ∧ ((parse_loc line).1 = none → parse_mypy_line line = Except.ok none)
  ∧ (∀ loc rest, parse_loc line = (some loc, rest) →
      (partition rest (": ".data)).1 ≠ ("error".data) →
      parse_mypy_line line = Except.error PyErr.assertionError) := by
  refine ⟨?_, ?_, ?_⟩
  · have hpl := parse_loc_wf path lineNo (("error".data) ++ (':' :: (' ' :: msg))) hp hpc hd hdd
    have hline : mkMypyLine path lineNo msg
        = path ++ (':' :: (lineNo ++ (':' :: (' ' :: (("error".data) ++ (':' :: (' ' :: msg))))))) := rfl
    have hpart : partition (("error".data) ++ (':' :: (' ' :: msg))) (": ".data)
        = (("error".data), (": ".data), msg) := by
      unfold partition
      rw [show (": ".data) = (':' :: [' ']) from rfl]
      rw [splitFirst_append_left ':' [' '] ("error".data) _ (by decide)]
      rw [show (':' :: (' ' :: msg)) = ((':' :: [' ']) ++ msg) from rfl, splitFirst_self_append]
      simp
    rw [parse_mypy_line_eq, hline, hpl]
    dsimp only
    rw [hpart]
    rfl
  · intro h0
    have h0' : parse_loc line = (none, (parse_loc line).2) := by
      rw [← h0]
    rw [parse_mypy_line_eq, h0']
  · intro loc rest hloc hne
    rw [parse_mypy_line_eq, hloc]
    dsimp only
    have hnone : AnnotationLevel.from_mypy_level (partition rest (": ".data)).1 = none := by
      unfold AnnotationLevel.from_mypy_level
      rw [if_neg hne]
    rw [hnone]

/-- Claim C5, witness: a concrete well-formed line is parsed to the
expected failure annotation, a location-less line is dropped, and a
located line with level token `note` raises the assertion error. -/
theorem C5_witness :
    parse_mypy_line (mkMypyLine ("a.py".data) ("12".data) ("bad type".data))
      = Except.ok (some ⟨⟨("a.py".data), pyInt ("12".data)⟩, AnnotationLevel.FAILURE,
          ("bad type".data), []⟩)
  ∧ parse_mypy_line ("note: in module".data) = Except.ok none
  ∧ parse_mypy_line ("a.py:3: note: zap".data) = Except.error PyErr.assertionError :=
  ⟨(C5_amended_mypy_line ("a.py".data) ("12".data) ("bad type".data) []
      (by decide) (by decide) (by decide) (by decide)).1,
   (C5_amended_mypy_line ("a".data) ("1".data) [] ("note: in module".data)
      (by decide) (by decide) (by decide) (by decide)).2.1 (by decide),
   (C5_amended_mypy_line ("a".data) ("1".data) [] ("a.py:3: note: zap".data)
      (by decide) (by decide) (by decide) (by decide)).2.2
     ⟨("a.py".data), 3⟩ ("note: zap".data) (by decide) (by decide)⟩

/-- Claim C6: the code contradicts the claimed totality.  On a line that
carries a valid `path:line` location but no bracketed code segment,
`parse_pylint_line` reaches `error_code[0]` with `error_code = ""` and
raises `IndexError` — the line is not dropped, and the error is not the
unsupported-input assertion error. -/
theorem C6_indexerror_on_bracketless_line :
    parse_pylint_line ("src/x.py:3: no brackets here".data) = Except.error PyErr.indexError := by
  decide

/-- Claim C4: for every batch, `get_conclusion` is `failure` when some
annotation has severity failure; else `failure` when some has severity
warning (warnings escalate); else `neutral` when some has severity notice;
else `success` — and the result is invariant under any permutation of the
batch's annotations. -/
theorem C4_conclusion_aggregation (b : Annotations) :
    ((∃ a ∈ b.annotations, a.level = AnnotationLevel.FAILURE) →
       get_conclusion b = ("failure".data))
  ∧ ((∀ a ∈ b.annotations, a.level ≠ AnnotationLevel.FAILURE) →
       (∃ a ∈ b.annotations, a.level = AnnotationLevel.WARNING) →
       get_conclusion b = ("failure".data))
  ∧ ((∀ a ∈ b.annotations, a.level ≠ AnnotationLevel.FAILURE) →
       (∀ a ∈ b.annotations, a.level ≠ AnnotationLevel.WARNING) →
       (∃ a ∈ b.annotations, a.level = AnnotationLevel.NOTICE) →
       get_conclusion b = ("neutral".data))
  ∧ ((∀ a ∈ b.annotations, a.level ≠ AnnotationLevel.FAILURE) →
       (∀ a ∈ b.annotations, a.level ≠ AnnotationLevel.WARNING) →
       (∀ a ∈ b.annotations, a.level ≠ AnnotationLevel.NOTICE) →
       get_conclusion b = ("success".data))
  ∧ (∀ l, b.annotations.Perm l →
       get_conclusion b = get_conclusion ⟨b.title, b.summary, l⟩) := by
  have hiff : ∀ (lst : List Annotation) (lv : AnnotationLevel),
      lst.any (fun a => a.level == lv) = true ↔ ∃ a ∈ lst, a.level = lv := by
    intro lst lv
    simp [List.any_eq_true]
  have hneg : ∀ (lst : List Annotation) (lv : AnnotationLevel),
      (∀ a ∈ lst, a.level ≠ lv) → lst.any (fun a => a.level == lv) = false := by
    intro lst lv hall
    cases hany : lst.any (fun a => a.level == lv) with
    | false => rfl
    | true =>
      obtain ⟨a, ha, hlv⟩ := (hiff lst lv).mp hany
      exact absurd hlv (hall a ha)
  refine ⟨?_, ?_, ?_, ?_, ?_⟩
  · intro hex
    simp [get_conclusion, (hiff _ _).mpr hex]
  · intro hf hex
    simp [get_conclusion, hneg _ _ hf, (hiff _ _).mpr hex]
  · intro hf hw hex
    simp [get_conclusion, hneg _ _ hf, hneg _ _ hw, (hiff _ _).mpr hex]
  · intro hf hw hn
    simp [get_conclusion, hneg _ _ hf, hneg _ _ hw, hneg _ _ hn]
  · intro l hperm
    simp only [get_conclusion]
    rw [any_perm _ hperm, any_perm _ hperm, any_perm _ hperm]

/-- Claim C4, witness: a batch holding a single warning annotation
aggregates to `failure`. -/
theorem C4_witness :
    get_conclusion ⟨[], [], [⟨⟨("a.py".data), 1⟩, AnnotationLevel.WARNING, ("m".data), []⟩]⟩
      = ("failure".data) :=
  (C4_conclusion_aggregation ⟨[], [], [⟨⟨("a.py".data), 1⟩, AnnotationLevel.WARNING,
      ("m".data), []⟩]⟩).2.1 (by decide) (by decide)

/-- Claim C2, counterexample.  `start` does not list and reuse: starting
`mypy` twice from the empty remote state issues two create requests, which
yield the distinct ids 0 and 1 and leave TWO check runs named `mypy` for
the same repository/commit pair. -/
theorem C2_counterexample :
    (start ctx0 ("mypy".data) none emptyServer).1 = 0
  ∧ (start ctx0 ("mypy".data) none (start ctx0 ("mypy".data) none emptyServer).2).1 = 1
  ∧ (start ctx0 ("mypy".data) none (start ctx0 ("mypy".data) none emptyServer).2).2.runs.map
      (fun r => r.name) = [("mypy".data), ("mypy".data)] := by
  refine ⟨by decide, by decide, by decide⟩

/-- Claim C2 (amended): `start` unconditionally creates a new remote check
run (each call grows the run list by one, so two calls create two runs
with distinct fresh ids); the list-first-and-reuse behaviour described by
the claim belongs to `check_run_id`, which IS idempotent — its second call
returns the same id as the first and leaves the remote state
unchanged. -/
theorem C2_amended_start_creates_check_run_id_idempotent (ctx : Config) (check_name : Str)
    (du : Option Str) (s : Server) :
    (start ctx check_name du s).2.runs.length = s.runs.length + 1
  ∧ (check_run_id ctx check_name ((check_run_id ctx check_name s).2)).1
      = (check_run_id ctx check_name s).1
  ∧ (check_run_id ctx check_name ((check_run_id ctx check_name s).2)).2
      = (check_run_id ctx check_name s).2 := by
  refine ⟨by simp [start, postCheckRun], ?_⟩
  cases hm : ((list_check_runs ctx s).filter (fun r => r.name == check_name)).map
      (fun r => r.id) with
  | cons i is =>
    have h1 := check_run_id_cons ctx check_name s i is hm
    simp [h1]
  | nil =>
    have h1 := check_run_id_nil ctx check_name s hm
    have hfl : ((list_check_runs ctx s).filter (fun r => r.name == check_name)) = [] := by
      cases hx : (list_check_runs ctx s).filter (fun r => r.name == check_name) with
      | nil => rfl
      | cons r rs => rw [hx] at hm; simp at hm
    have hnew : (start ctx check_name none s).2.runs
        = s.runs ++ [⟨s.nextId, ctx.repo, ctx.sha, check_name, ("in_progress".data),
            none, none, none⟩] := rfl
    have hfilter : ((list_check_runs ctx (start ctx check_name none s).2).filter
          (fun r => r.name == check_name)).map (fun r => r.id) = [s.nextId] := by
      unfold list_check_runs at hfl ⊢
      rw [hnew, List.filter_append, List.filter_append, hfl]
      simp
    have h2 := check_run_id_cons ctx check_name (start ctx check_name none s).2
      s.nextId [] hfilter
    rw [h1, h2]
    exact ⟨rfl, rfl⟩

/-- Claim C3, counterexample.  Calling `conclude` in direct mode for a
check that was never started does NOT raise a "never started" error: from
the empty remote state the lookup falls back to `start`, creating a fresh
run, which `conclude` then completes — the call returns normally and a new
run exists afterwards. -/
theorem C3_counterexample :
    (conclude ctx0 ("ci".data) (some ("success".data)) none emptyServer).1 = Except.ok ()
  ∧ (conclude ctx0 ("ci".data) (some ("success".data)) none emptyServer).2.runs.map
      (fun r => (r.name, r.status, r.conclusion))
      = [(("ci".data), ("completed".data), some ("success".data))] := by
  refine ⟨by decide, by decide⟩

/-- Claim C3 (amended): when the remote listing holds no run matching the
name, direct-mode `conclude` does not raise — it creates a run via the
`check_run_id` fallback to `start` and completes it (the run count grows
by one); when the listing holds one or more matches, `conclude`
deterministically patches the first match in listing order. -/
theorem C3_amended_conclude_lookup (ctx : Config) (check_name : Str) (c : Str) (s : Server) :
    (((list_check_runs ctx s).filter (fun r => r.name == check_name)) = [] →
       (conclude ctx check_name (some c) none s).1 = Except.ok ()
       ∧ (conclude ctx check_name (some c) none s).2.runs.length = s.runs.length + 1)
  ∧ (∀ r rest, ((list_check_runs ctx s).filter (fun r2 => r2.name == check_name)) = r :: rest →
       conclude ctx check_name (some c) none s
         = (Except.ok (), patchRun r.id ("completed".data) (some c) none s)) := by
  constructor
  · intro hf
    have hm : ((list_check_runs ctx s).filter (fun r => r.name == check_name)).map
        (fun r => r.id) = [] := by
      rw [hf]
      rfl
    have h1 := check_run_id_nil ctx check_name s hm
    rw [conclude_direct, h1]
    refine ⟨rfl, ?_⟩
    simp [patchRun, start, postCheckRun]
  · intro r rest hcons
    have hm : ((list_check_runs ctx s).filter (fun r2 => r2.name == check_name)).map
        (fun r2 => r2.id) = r.id :: rest.map (fun r2 => r2.id) := by
      rw [hcons]
      rfl
    have h1 := check_run_id_cons ctx check_name s r.id (rest.map (fun r2 => r2.id)) hm
    rw [conclude_direct, h1]

/-- Claim C3, witness: concluding a never-started `mypy` check from the
empty state succeeds and creates one run; concluding `ci` against a state
whose listing holds exactly one matching run patches that run. -/
theorem C3_witness :
    ((conclude ctx0 ("mypy".data) (some ("failure".data)) none emptyServer).1 = Except.ok ()
     ∧ (conclude ctx0 ("mypy".data) (some ("failure".data)) none emptyServer).2.runs.length
         = emptyServer.runs.length + 1)
  ∧ conclude ctx0 ("ci".data) (some ("success".data)) none serverWithCi
      = (Except.ok (), patchRun 7 ("completed".data) (some ("success".data)) none serverWithCi) :=
  ⟨(C3_amended_conclude_lookup ctx0 ("mypy".data) ("failure".data) emptyServer).1 (by decide),
   (C3_amended_conclude_lookup ctx0 ("ci".data) ("success".data) serverWithCi).2
     ⟨7, ("octo/repo".data), ("deadbeef".data), ("ci".data), ("in_progress".data), none, none, none⟩
     [] (by decide)⟩

/-- Claim C7, counterexample.  With the repository variable unset, the
commit variable set and the token variable unset, `get_ctx` mints a token
(the only network call in its body) BEFORE the `assert repo` fires: the
call trace already contains the token-minting request when the run aborts,
contradicting the claim that the abort precedes any remote call. -/
theorem C7_counterexample :
    get_ctx ⟨none, some ("abc".data), none⟩ [] ("tok".data)
      = ([ExtCall.mintToken], Except.error PyErr.assertionError) := by
  decide

/-- Claim C7 (amended): when the repository identifier is missing (unset
or empty), building the configuration does abort with an assertion error —
but the abort does not precede remote calls: whenever the token variable
is unset the token-minting network request is issued before the abort, and
only when a non-empty token is supplied does no minting call occur. -/
theorem C7_amended_get_ctx (env : Env) (git_out minted : Str) :
    ((env.repo = none ∨ env.repo = some []) →
       (get_ctx env git_out minted).2 = Except.error PyErr.assertionError)
  ∧ (env.token = none → ExtCall.mintToken ∈ (get_ctx env git_out minted).1)
  ∧ (∀ tk, env.token = some tk → tk ≠ [] → ExtCall.mintToken ∉ (get_ctx env git_out minted).1) := by
  refine ⟨?_, ?_, ?_⟩
  · intro h
    obtain ⟨repo, sha, token⟩ := env
    cases h with
    | inl h =>
      cases h
      rfl
    | inr h =>
      cases h
      rfl
  · intro h
    rw [get_ctx_calls, h]
    simp [envOr]
  · intro tk htk hne
    rw [get_ctx_calls, htk]
    have hne2 : tk.isEmpty = false := by
      cases tk with
      | nil => exact absurd rfl hne
      | cons a as => rfl
    obtain ⟨repo, sha, token⟩ := env
    cases sha with
    | none => simp [envOr, hne2]
    | some sv =>
      by_cases hse : sv.isEmpty = true
      · simp [envOr, hne2, hse]
      · simp [envOr, hne2, hse]

/-- Claim C7, witness: with the repository variable unset and no token
supplied, `get_ctx` aborts with the assertion error while its trace
already holds the token-minting call. -/
theorem C7_witness :
    (get_ctx ⟨none, some ("abc".data), none⟩ [] ("tok".data)).2
      = Except.error PyErr.assertionError
  ∧ ExtCall.mintToken ∈ (get_ctx ⟨none, some ("abc".data), none⟩ [] ("tok".data)).1 :=
  ⟨(C7_amended_get_ctx ⟨none, some ("abc".data), none⟩ [] ("tok".data)).1 (Or.inl rfl),
   (C7_amended_get_ctx ⟨none, some ("abc".data), none⟩ [] ("tok".data)).2.1 rfl⟩

/-- Claim C8, counterexample.  The stdin branch of `get_lines` yields
lines with their terminators kept, so the newline-terminated content
`a.py:1: error: m\n` read via stdin parses to an annotation whose message
carries a trailing newline, while the same logical content framed with
carriage-return-newline through the isolated-environment capture parses to
the message `m` — the two annotation batches differ. -/
theorem C8_counterexample :
    parse_mypy (get_lines ("-".data) ("a.py:1: error: m\n".data))
      ≠ parse_mypy ((run_and_capture_lines ("a.py:1: error: m\r\n".data) false).1) := by
  decide

/-- Claim C8 (amended): for the FILE branch of the line source, parsing is
insensitive to framing — for every non-empty list of logical lines free of
newline and carriage-return characters, the annotations parsed from the
newline-framed content read via `get_lines` on a file path equal those
parsed from the same lines framed with carriage-return-newline through
`run_and_capture_lines`, and no parsed message contains a carriage
return.  (The stdin branch keeps terminators and can differ, see the
counterexample.) -/
theorem C8_amended_file_framing (L : List Str) (hL : L ≠ [])
    (hc : ∀ l ∈ L, ∀ c ∈ l, c ≠ '\n' ∧ c ≠ '\r') :
    parse_mypy (get_lines ("out.txt".data) (joinSep ("\n".data) L))
      = parse_mypy ((run_and_capture_lines (joinSep ("\r\n".data) L) false).1)
  ∧ (∀ A, parse_mypy ((run_and_capture_lines (joinSep ("\r\n".data) L) false).1) = Except.ok A →
       ∀ a ∈ A.annotations, ∀ c ∈ a.msg, c ≠ '\r') := by
  have hfile : get_lines ("out.txt".data) (joinSep ("\n".data) L) = L := by
    unfold get_lines
    rw [if_neg (by decide)]
    have h := splitOn_joinSep '\n' [] L hL (fun l hl c hcl => ((hc l hl c hcl).1))
    rw [show ("\n".data) = ('\n' :: ([] : Str)) from rfl]
    exact h
  have hexec : (run_and_capture_lines (joinSep ("\r\n".data) L) false).1 = L := by
    show splitOn (joinSep ("\r\n".data) L) ("\r\n".data) = L
    have h := splitOn_joinSep '\r' ['\n'] L hL (fun l hl c hcl => ((hc l hl c hcl).2))
    rw [show ("\r\n".data) = ('\r' :: (['\n'] : Str)) from rfl]
    exact h
  refine ⟨by rw [hfile, hexec], ?_⟩
  intro A hA a ha c hcmem
  rw [hexec] at hA
  exact parse_mypy_msg_chars L A (fun l hl c2 hc2 => (hc l hl c2 hc2).2) hA a ha c hcmem

/-- Claim C8, witness: for a concrete one-line content the file-read
newline framing and the captured carriage-return-newline framing parse to
the same result. -/
theorem C8_witness :
    parse_mypy (get_lines ("out.txt".data) (joinSep ("\n".data) [("a.py:1: error: m".data)]))
      = parse_mypy ((run_and_capture_lines (joinSep ("\r\n".data)
          [("a.py:1: error: m".data)]) false).1) :=
  (C8_amended_file_framing [("a.py:1: error: m".data)] (by decide) (by decide)).1

/-- Claim C9: `annotate` in src/checks.py returns immediately for every
context, check name and batch, leaving the remote state untouched (the
lookup-and-patch code after its leading bare `return` never executes), so
the CLI actions `annotate-mypy` and `annotate-pylint` leave the remote
check-run state completely unchanged and never publish any diagnostics —
even when the mypy parse raises before `annotate` is entered. -/
theorem C9_annotate_is_noop (ctx : Config) (check_name : Str) (anns : Option AnnotationsV1)
    (lines : List Str) (s : Server) :
    annotate ctx check_name anns s = ((), s)
  ∧ (annotate_mypy_action ctx lines s).2 = s
  ∧ annotate_pylint_action ctx lines s = (Except.ok (), s) := by
  refine ⟨rfl, ?_, rfl⟩
  unfold annotate_mypy_action
  cases parse_mypy_v1 lines with
  | error e => rfl
  | ok anns2 => rfl

/-- Claim C10: the two copies of the location parser are extensionally
equal, and for every input sequence the two mypy parsers produce
annotation sequences that agree in location, severity and message (the
src/checks.py variant carries no title field, so the comparison projects
each annotation to that triple; exceptional outcomes coincide as well). -/
theorem C10_parsers_extensionally_equal :
    (∀ line, parse_loc_v1 line = parse_loc line)
  ∧ (∀ lines, Except.map (fun A => A.annotations.map (fun a => (a.loc, a.level, a.msg)))
        (parse_mypy_v1 lines)
      = Except.map (fun A => A.annotations.map (fun a => (a.loc, a.level, a.msg)))
        (parse_mypy lines)) := by
  refine ⟨parse_loc_v1_eq, ?_⟩
  intro lines
  unfold parse_mypy_v1 parse_mypy
  rw [mypy_loop_agree lines]
  cases parse_annotations parse_mypy_line lines with
  | error e => rfl
  | ok anns => simp [Except.map, List.map_map]

end Checks
